import Mathlib

/-!
# Verification of the npm-security-score risk-scoring pipeline

Shallow embedding, in Lean 4, of the core of the `npm-security-score`
repository: the `ScoreCalculator` aggregation loop (`src/core/ScoreCalculator.js`),
the `LifecycleScriptRiskRule` pattern scoring, the `UpdateBehaviorRule`
version-history diffing (`src/rules/...`), and the `TarballAnalyzer`
archive-ingestion paths (`src/utils/tarballAnalyzer.js`).

JavaScript numbers are modelled as rationals (`ℚ`) where fractional
arithmetic occurs and as naturals/integers where the source only ever
handles integral values.  Fallible operations are modelled with `Except`.
Dynamic rule dispatch is modelled by passing each registered rule's
evaluation outcome explicitly to the calculator.
-/

namespace NpmScore

/-! ## Data model -/

/-- A normalized package snapshot as consumed by the scoring pipeline:
`name`, `version`, lifecycle `scripts` (hook name → command string) and the
four dependency maps, plus distribution info.  Fields that JavaScript code
may find `undefined` are `Option`s. -/
structure PackageData where
  name : Option String
  version : Option String
  scripts : List (String × String)
  dependencies : List (String × String)
  devDependencies : List (String × String)
  peerDependencies : List (String × String)
  optionalDependencies : List (String × String)
  unpackedSize : Option ℚ
  deriving Repr, DecidableEq

/-- The empty snapshot (every field absent). -/
def PackageData.empty : PackageData :=
  ⟨none, none, [], [], [], [], [], none⟩

/-! ## Score Calculator (`src/core/ScoreCalculator.js`)

`calculateScore` iterates over the registered rules, awaiting each rule's
`evaluate`.  A rule evaluation either returns `{deduction?, bonus?,
riskLevel?}` or throws; the embedding passes the outcome of each
registered rule explicitly, in registration order. -/

/-- Outcome of one rule's `evaluate` call: either a result object whose
`deduction` / `bonus` / `riskLevel` fields may be absent (JS `undefined`,
defaulted with `|| 0` resp. `|| 'none'`), or a thrown error message. -/
inductive RuleOutcome where
  | ok (deduction : Option ℚ) (bonus : Option ℚ) (riskLevel : Option String)
  | err (msg : String)
  deriving Repr, DecidableEq

/-- One entry of `ruleResults` as pushed by `calculateScore`. -/
structure RuleResult where
  ruleName : String
  deduction : ℚ
  bonus : ℚ
  riskLevel : String
  errorMsg : Option String
  deriving Repr, DecidableEq

/-- Scoring configuration: `{baseScore, minScore, maxScore}` defaulted to
`{100, 0, 100}` in the `ScoreCalculator` constructor. -/
structure ScoringConfig where
  baseScore : ℚ
  minScore : ℚ
  maxScore : ℚ
  deriving Repr, DecidableEq

/-- The constructor defaults: `baseScore 100`, `minScore 0`, `maxScore 100`. -/
def defaultScoringConfig : ScoringConfig := ⟨100, 0, 100⟩

/-- `ruleResults` entry built from one rule's outcome: on success the
fields are defaulted with `|| 0` / `|| 'none'`; on a thrown error the entry
is `{deduction: 0, bonus: 0, riskLevel: 'error', details: {error: msg}}`. -/
def mkRuleResult : String × RuleOutcome → RuleResult
  | (n, RuleOutcome.ok d b rl) => ⟨n, d.getD 0, b.getD 0, rl.getD "none", none⟩
  | (n, RuleOutcome.err m) => ⟨n, 0, 0, "error", some m⟩

/-- The evaluation loop of `calculateScore`: starting from the running
score `s`, subtract each successful rule's `deduction || 0`, add its
`bonus || 0`, and skip the arithmetic entirely for a rule that threw,
collecting one `RuleResult` per rule either way. -/
def evalRules : List (String × RuleOutcome) → ℚ → ℚ × List RuleResult
  | [], s => (s, [])
  | (n, o) :: rest, s =>
    match o with
    | RuleOutcome.ok d b rl =>
      let out := evalRules rest (s - d.getD 0 + b.getD 0)
      (out.1, ⟨n, d.getD 0, b.getD 0, rl.getD "none", none⟩ :: out.2)
    | RuleOutcome.err m =>
      let out := evalRules rest s
      (out.1, ⟨n, 0, 0, "error", some m⟩ :: out.2)

/-- JavaScript `Math.round`: round half toward positive infinity. -/
def jsRound (x : ℚ) : ℤ := ⌊x + 1 / 2⌋

/-- `Math.round(score * 100) / 100`: round to two decimal places. -/
def round2 (x : ℚ) : ℚ := (jsRound (x * 100) : ℚ) / 100

/-- Modelled from the spec: `getScoreBand` lives in `src/core/scoreBands.js`,
which is not among the analyzed sources (only its callers are).  The spec
fixes the thresholds: `≥90 → Safe, [70,90) → Review, [50,70) → High Risk,
<50 → Block`; the band is modelled by its label. -/
def getScoreBand (s : ℚ) : String :=
  if 90 ≤ s then "Safe"
  else if 70 ≤ s then "Review"
  else if 50 ≤ s then "High Risk"
  else "Block"

/-- The result object returned by `calculateScore`. -/
structure ScoreResult where
  score : ℚ
  band : String
  ruleResults : List RuleResult
  packageName : Option String
  packageVersion : Option String
  deriving Repr, DecidableEq

/-- The clamp applied after the rule loop:
`Math.max(minScore, Math.min(maxScore, score))`. -/
def clampScore (cfg : ScoringConfig) (s : ℚ) : ℚ :=
  max cfg.minScore (min cfg.maxScore s)

/-- Body of `calculateScore` after the presence check: run the rule loop
from `baseScore`, clamp the running score, compute the band from the
clamped (un-rounded) value, and return the score rounded to two decimals. -/
def calculateScoreOk (cfg : ScoringConfig) (pd : PackageData)
    (rules : List (String × RuleOutcome)) : ScoreResult :=
  let out := evalRules rules cfg.baseScore
  let clamped := clampScore cfg out.1
  { score := round2 clamped
    band := getScoreBand clamped
    ruleResults := out.2
    packageName := pd.name
    packageVersion := pd.version }

/-- `calculateScore(packageData)`: throws `'Package data is required'` when
the argument is absent, otherwise never throws. -/
def calculateScore (cfg : ScoringConfig) (pd : Option PackageData)
    (rules : List (String × RuleOutcome)) : Except String ScoreResult :=
  match pd with
  | none => Except.error "Package data is required"
  | some p => Except.ok (calculateScoreOk cfg p rules)

/-! Helper lemmas about the rule loop. -/

/-- The final running score of the loop is independent of the collected
results: appending lists splits the fold. -/
theorem evalRules_append (l₁ l₂ : List (String × RuleOutcome)) (s : ℚ) :
    evalRules (l₁ ++ l₂) s =
      ((evalRules l₂ (evalRules l₁ s).1).1,
        (evalRules l₁ s).2 ++ (evalRules l₂ (evalRules l₁ s).1).2) := by
  induction l₁ generalizing s with
  | nil => simp [evalRules]
  | cons hd tl ih =>
    obtain ⟨n, o⟩ := hd
    cases o <;> simp [evalRules, ih]

/-- The collected `ruleResults` are exactly `mkRuleResult` applied to each
registered rule's outcome, in registration order. -/
theorem evalRules_results (l : List (String × RuleOutcome)) (s : ℚ) :
    (evalRules l s).2 = l.map mkRuleResult := by
  induction l generalizing s with
  | nil => rfl
  | cons hd tl ih =>
    obtain ⟨n, o⟩ := hd
    cases o <;> simp [evalRules, mkRuleResult, ih]

/-- A thrown rule contributes nothing to the running score. -/
theorem evalRules_err_score (pre post : List (String × RuleOutcome))
    (n : String) (m : String) (s : ℚ) :
    (evalRules (pre ++ (n, RuleOutcome.err m) :: post) s).1 =
      (evalRules (pre ++ post) s).1 := by
  rw [evalRules_append, evalRules_append]
  simp [evalRules]

/-- Bounds of `round2` on the default range. -/
theorem round2_bounds {x : ℚ} (h0 : 0 ≤ x) (h1 : x ≤ 100) :
    0 ≤ round2 x ∧ round2 x ≤ 100 := by
  unfold round2 jsRound
  have hf0 : (0 : ℤ) ≤ ⌊x * 100 + 1 / 2⌋ := Int.le_floor.mpr (by push_cast; linarith)
  have hf1 : ⌊x * 100 + 1 / 2⌋ < 10001 := Int.floor_lt.mpr (by push_cast; linarith)
  constructor
  · apply div_nonneg _ (by norm_num)
    exact_mod_cast hf0
  · rw [div_le_iff₀ (by norm_num)]
    have : ⌊x * 100 + 1 / 2⌋ ≤ 10000 := by omega
    calc (⌊x * 100 + 1 / 2⌋ : ℚ) ≤ 10000 := by exact_mod_cast this
      _ ≤ 100 * 100 := by norm_num

/-- **C2.** For every package snapshot and every finite sequence of
registered rules, whatever deduction and bonus values the rule evaluations
return (arbitrarily large, negative, or absent), `calculateScore` under the
default configuration (`minScore = 0`, `maxScore = 100`) succeeds and the
`score` field of its result satisfies `minScore ≤ score ≤ maxScore`. -/
theorem calculateScore_score_clamped (pd : PackageData)
    (rules : List (String × RuleOutcome)) :
    ∃ res : ScoreResult,
      calculateScore defaultScoringConfig (some pd) rules = Except.ok res ∧
      defaultScoringConfig.minScore ≤ res.score ∧
      res.score ≤ defaultScoringConfig.maxScore := by
  refine ⟨calculateScoreOk defaultScoringConfig pd rules, rfl, ?_, ?_⟩ <;>
  · show _ ≤ _
    have hc0 : (0 : ℚ) ≤ clampScore defaultScoringConfig
        (evalRules rules defaultScoringConfig.baseScore).1 := le_max_left _ _
    have hc1 : clampScore defaultScoringConfig
        (evalRules rules defaultScoringConfig.baseScore).1 ≤ 100 :=
      max_le (by norm_num [defaultScoringConfig]) (min_le_left _ _)
    have := round2_bounds hc0 hc1
    simp only [calculateScoreOk, defaultScoringConfig] at *
    first
    | exact this.1
    | exact this.2

/-- **C3.** `calculateScore` raises an error exactly when the snapshot is
absent; a rule whose `evaluate` throws is recorded as a `RuleResult` with
`riskLevel "error"`, `deduction 0`, `bonus 0` and the captured message,
every rule still contributes one entry of `ruleResults` in order, the
thrown rule does not change the final score, and a numeric score is always
produced when the snapshot is present. -/
theorem calculateScore_error_handling (cfg : ScoringConfig) (pd : PackageData)
    (rules pre post : List (String × RuleOutcome)) (n m : String) :
    calculateScore cfg none rules = Except.error "Package data is required" ∧
    calculateScore cfg (some pd) rules =
      Except.ok (calculateScoreOk cfg pd rules) ∧
    (calculateScoreOk cfg pd rules).ruleResults = rules.map mkRuleResult ∧
    mkRuleResult (n, RuleOutcome.err m) =
      ⟨n, 0, 0, "error", some m⟩ ∧
    (calculateScoreOk cfg pd (pre ++ (n, RuleOutcome.err m) :: post)).score =
      (calculateScoreOk cfg pd (pre ++ post)).score := by
  refine ⟨rfl, rfl, ?_, rfl, ?_⟩
  · simp [calculateScoreOk, evalRules_results]
  · simp [calculateScoreOk, evalRules_err_score]

/-- **C10.** The band is classified from the clamped but still un-rounded
running score, while the returned `score` is rounded to two decimals: with
a single rule deducting `10.004`, the raw clamped score `89.996` lies in
`(89.995, 90)`, the returned score rounds up to exactly `90`, yet the band
is `"Review"` — the band assigned to scores strictly below `90` — even
though a score of `90` itself would classify as `"Safe"`. -/
theorem band_uses_unrounded_score (pd : PackageData) :
    (89995 / 1000 < clampScore defaultScoringConfig
        (evalRules [("r", RuleOutcome.ok (some (2501 / 250)) none none)]
          defaultScoringConfig.baseScore).1 ∧
      clampScore defaultScoringConfig
        (evalRules [("r", RuleOutcome.ok (some (2501 / 250)) none none)]
          defaultScoringConfig.baseScore).1 < 90) ∧
    (calculateScoreOk defaultScoringConfig pd
        [("r", RuleOutcome.ok (some (2501 / 250)) none none)]).score = 90 ∧
    (calculateScoreOk defaultScoringConfig pd
        [("r", RuleOutcome.ok (some (2501 / 250)) none none)]).band = "Review" ∧
    getScoreBand 90 = "Safe" := by
  have hrun : (evalRules [("r", RuleOutcome.ok (some (2501 / 250)) none none)]
      defaultScoringConfig.baseScore).1 = 22499 / 250 := by
    norm_num [evalRules, defaultScoringConfig]
  have hclamp : clampScore defaultScoringConfig (22499 / 250) = 22499 / 250 := by
    rw [clampScore]
    rw [min_eq_right (by norm_num [defaultScoringConfig])]
    rw [max_eq_right (by norm_num [defaultScoringConfig])]
  have hfloor : ⌊(22499 / 250 : ℚ) * 100 + 1 / 2⌋ = 9000 := by
    rw [Int.floor_eq_iff]
    norm_num
  refine ⟨⟨?_, ?_⟩, ?_, ?_, ?_⟩
  · rw [hrun, hclamp]; norm_num
  · rw [hrun, hclamp]; norm_num
  · show round2 (clampScore defaultScoringConfig _) = 90
    rw [hrun, hclamp, round2, jsRound, hfloor]
    norm_num
  · show getScoreBand (clampScore defaultScoringConfig _) = "Review"
    rw [hrun, hclamp, getScoreBand]
    norm_num
  · rw [getScoreBand]
    norm_num

/-! ## A small regular-expression engine

The lifecycle-script and update-behavior rules test JavaScript regular
expressions against script text (`RegExp.prototype.test`: does any
substring match).  The fragment the source uses — literal characters with
the `i` flag, character classes (`\s`, `[^\s]`, `[A-Za-z0-9+/]`, `['"]`,
`.`), `*`, `+`, bounded repetition, `?`, and a leading `\b` word-boundary
— is embedded as a Brzozowski-derivative matcher plus a scan over match
start positions carrying the word-boundary context. -/

inductive Regex where
  | emp : Regex
  | eps : Regex
  | cls (p : Char → Bool) : Regex
  | cat (r₁ r₂ : Regex) : Regex
  | alt (r₁ r₂ : Regex) : Regex
  | star (r : Regex) : Regex

/-- Does the regex accept the empty string? -/
def nullable : Regex → Bool
  | .emp => false
  | .eps => true
  | .cls _ => false
  | .cat a b => nullable a && nullable b
  | .alt a b => nullable a || nullable b
  | .star _ => true

/-- Concatenation, simplifying the `emp`/`eps` units. -/
def catS : Regex → Regex → Regex
  | .emp, _ => .emp
  | .eps, r => r
  | _, .emp => .emp
  | a, .eps => a
  | a, b => .cat a b

/-- Alternation, simplifying the `emp` unit. -/
def altS : Regex → Regex → Regex
  | .emp, r => r
  | a, .emp => a
  | a, b => .alt a b

/-- Brzozowski derivative with respect to one character. -/
def deriv : Regex → Char → Regex
  | .emp, _ => .emp
  | .eps, _ => .emp
  | .cls p, c => if p c then .eps else .emp
  | .cat a b, c =>
    if nullable a then altS (catS (deriv a c) b) (deriv b c)
    else catS (deriv a c) b
  | .alt a b, c => altS (deriv a c) (deriv b c)
  | .star r, c => catS (deriv r c) (.star r)

/-- Does some prefix of `cs` belong to the regex's language? -/
def matchesSomePrefix : Regex → List Char → Bool
  | r, [] => nullable r
  | r, c :: rest => nullable r || matchesSomePrefix (deriv r c) rest

/-- JavaScript `\w`: `[A-Za-z0-9_]`. -/
def isWordChar (c : Char) : Bool := c.isAlpha || c.isDigit || c == '_'

/-- Word-char status of the character left of the current position. -/
def wordOpt : Option Char → Bool
  | none => false
  | some c => isWordChar c

/-- Scan every match start position.  When `b` is set the pattern begins
with `\b`, so a match may start only where exactly one of the two
neighbouring characters is a word character. -/
def searchFrom (b : Bool) (r : Regex) : Option Char → List Char → Bool
  | prev, [] => (!b || wordOpt prev) && nullable r
  | prev, c :: rest =>
    ((!b || (wordOpt prev != isWordChar c)) && matchesSomePrefix r (c :: rest))
      || searchFrom b r (some c) rest

/-- A compiled source pattern: whether it starts with `\b`, and its body. -/
structure JsPattern where
  bAtStart : Bool
  re : Regex

/-- `RegExp.prototype.test`: does the pattern match anywhere in `s`? -/
def testPat (p : JsPattern) (s : String) : Bool :=
  searchFrom p.bAtStart p.re none s.data

/-! Pattern-building helpers mirroring the source regex syntax. -/

/-- A literal character under the `i` flag. -/
def chri (c : Char) : Regex := .cls (fun x => x.toLower == c.toLower)

/-- A literal (case-sensitive) symbol. -/
def sym (c : Char) : Regex := .cls (fun x => x == c)

/-- A case-insensitive literal word. -/
def lit (s : String) : Regex := s.data.foldr (fun c r => .cat (chri c) r) .eps

/-- Sequential composition of a pattern list. -/
def seq : List Regex → Regex
  | [] => .eps
  | r :: rs => .cat r (seq rs)

/-- JavaScript `\s` (whitespace class, including the Unicode members). -/
def jsWhitespace (c : Char) : Bool :=
  c == ' ' || c == '\t' || c == '\n' || c == '\r' || c == '\x0b' || c == '\x0c' ||
    c == ' ' ||
    (0x1680 == c.toNat) || (0x2000 ≤ c.toNat && c.toNat ≤ 0x200a) ||
    c.toNat == 0x2028 || c.toNat == 0x2029 || c.toNat == 0x202f ||
    c.toNat == 0x205f || c.toNat == 0x3000 || c.toNat == 0xfeff

/-- `\s` -/
def ws : Regex := .cls jsWhitespace

/-- `\s*` -/
def wsStar : Regex := .star ws

/-- `\s+` -/
def wsPlus : Regex := .cat ws wsStar

/-- `[^\s]+` -/
def nonWsPlus : Regex :=
  .cat (.cls (fun c => !jsWhitespace c)) (.star (.cls (fun c => !jsWhitespace c)))

/-- JavaScript `.` without the `s` flag: anything but a line terminator. -/
def anyCh : Regex :=
  .cls (fun c => !(c == '\n' || c == '\r' || c.toNat == 0x2028 || c.toNat == 0x2029))

/-- `.*` -/
def dotStar : Regex := .star anyCh

/-- `r?` -/
def optR (r : Regex) : Regex := .alt r .eps

/-- `['"]` -/
def quoteCls : Regex := .cls (fun c => c == '\'' || c == '"')

/-- `r{n,}`: at least `n` repetitions. -/
def repAtLeast (r : Regex) : Nat → Regex
  | 0 => .star r
  | n + 1 => .cat r (repAtLeast r n)

/-! ## Lifecycle-Script Risk Rule (`src/rules/LifecycleScriptRiskRule.js`) -/

/-- `\brequire\s*\(\s*['"]X['"]\s*\)` for a module-name pattern `X`. -/
def requirePat (inner : Regex) : JsPattern :=
  ⟨true, seq [lit "require", wsStar, sym '(', wsStar, quoteCls, inner, quoteCls,
    wsStar, sym ')']⟩

/-- The `suspiciousCommands` pattern list of `LifecycleScriptRiskRule`,
transcribed in source order. -/
def suspiciousCommands : List JsPattern :=
  [ ⟨true, seq [lit "curl", wsPlus, nonWsPlus]⟩,
    ⟨true, seq [lit "wget", wsPlus, nonWsPlus]⟩,
    ⟨true, seq [lit "http", wsPlus, nonWsPlus]⟩,
    ⟨true, seq [lit "ftp", wsPlus, nonWsPlus]⟩,
    ⟨true, seq [lit "nc", wsPlus, nonWsPlus]⟩,
    ⟨true, seq [lit "netcat", wsPlus, nonWsPlus]⟩,
    ⟨true, seq [lit "telnet", wsPlus, nonWsPlus]⟩,
    requirePat (seq [lit "http", optR (chri 's')]),
    requirePat (lit "http"),
    requirePat (lit "https"),
    requirePat (lit "request"),
    requirePat (lit "axios"),
    ⟨true, seq [lit "fetch", wsStar, sym '(']⟩,
    ⟨true, lit "XMLHttpRequest"⟩,
    ⟨true, lit "download"⟩,
    ⟨true, seq [lit "wget", wsPlus, dotStar, lit "http"]⟩,
    ⟨true, seq [lit "curl", wsPlus, dotStar, lit "http"]⟩,
    ⟨true, seq [lit "eval", wsStar, sym '(']⟩,
    ⟨true, seq [lit "Function", wsStar, sym '(']⟩,
    ⟨true, seq [lit "exec", wsStar, sym '(']⟩,
    ⟨true, seq [lit "execSync", wsStar, sym '(']⟩,
    ⟨true, seq [lit "spawn", wsStar, sym '(']⟩,
    ⟨true, seq [lit "spawnSync", wsStar, sym '(']⟩ ]

/-- `[A-Za-z0-9+/]` -/
def base64Cls : Regex := .cls (fun c => c.isAlpha || c.isDigit || c == '+' || c == '/')

/-- `[0-9a-fA-F]` -/
def hexCls : Regex :=
  .cls (fun c => c.isDigit || ('a' ≤ c && c ≤ 'f') || ('A' ≤ c && c ≤ 'F'))

/-- The `obfuscationPatterns` list, transcribed in source order. -/
def obfuscationPatterns : List JsPattern :=
  [ ⟨false, seq [repAtLeast base64Cls 50, optR (sym '='), optR (sym '=')]⟩,
    ⟨false, seq [sym '\\', sym 'x', hexCls, hexCls]⟩,
    ⟨false, seq [lit "String", sym '.', lit "fromCharCode", wsStar, sym '(']⟩,
    ⟨true, seq [lit "eval", wsStar, sym '(', wsStar, lit "eval", wsStar, sym '(']⟩,
    ⟨true, seq [.cls Char.isAlpha, sym '$',
      .cat (.cls (fun c => c.isAlpha || c.isDigit))
        (.star (.cls (fun c => c.isAlpha || c.isDigit))), sym '$']⟩ ]

/-- The `highRiskPatterns` list, transcribed in source order. -/
def highRiskPatterns : List JsPattern :=
  [ ⟨true, seq [lit "curl", wsPlus, dotStar, sym '|', wsStar, lit "sh"]⟩,
    ⟨true, seq [lit "curl", wsPlus, dotStar, sym '|', wsStar, lit "bash"]⟩,
    ⟨true, seq [lit "wget", wsPlus, dotStar, sym '|', wsStar, lit "sh"]⟩,
    ⟨true, seq [lit "wget", wsPlus, dotStar, sym '|', wsStar, lit "bash"]⟩,
    ⟨true, seq [lit "http", dotStar, sym '|', wsStar, lit "sh"]⟩,
    ⟨true, seq [lit "http", dotStar, sym '|', wsStar, lit "bash"]⟩,
    ⟨true, seq [lit "eval", wsStar, sym '(', wsStar, dotStar, lit "http"]⟩,
    ⟨true, seq [lit "Function", wsStar, sym '(', wsStar, dotStar, lit "http"]⟩ ]

/-- Count of non-overlapping matches of the chain pattern `&&|\|\||;`,
scanning left to right as `String.prototype.match` with the `g` flag does. -/
def countChains : List Char → Nat
  | '&' :: '&' :: rest => countChains rest + 1
  | '|' :: '|' :: rest => countChains rest + 1
  | ';' :: rest => countChains rest + 1
  | _ :: rest => countChains rest
  | [] => 0

/-- Result of `_analyzeScript` for one script. -/
structure ScriptAnalysis where
  risk : Nat
  isHighRisk : Bool
  riskLevel : String
  deriving Repr, DecidableEq

/-- `_analyzeScript`: one high-risk hit adds 3 (checking stops at the
first), every matching suspicious-command pattern adds 1, every matching
obfuscation pattern adds 2, and ≥3 chain operators add 1; the per-script
tier is `high` on a high-risk hit or risk ≥ 3, `medium` at ≥ 2, `low` at
≥ 1. -/
def analyzeScript (script : String) : ScriptAnalysis :=
  let highHit := highRiskPatterns.any (fun p => testPat p script)
  let suspCount := (suspiciousCommands.filter (fun p => testPat p script)).length
  let obfCount := (obfuscationPatterns.filter (fun p => testPat p script)).length
  let chainHit := decide (3 ≤ countChains script.data)
  let risk := (if highHit then 3 else 0) + suspCount + 2 * obfCount +
    (if chainHit then 1 else 0)
  { risk := risk
    isHighRisk := highHit
    riskLevel :=
      if highHit || 3 ≤ risk then "high"
      else if 2 ≤ risk then "medium"
      else if 1 ≤ risk then "low"
      else "none" }

/-- The npm lifecycle hooks. -/
def lifecycleHooks : List String :=
  ["preinstall", "install", "postinstall", "preuninstall", "uninstall",
    "postuninstall", "prepublish", "prepublishOnly", "prepack", "postpack",
    "prepare"]

/-- Modelled from the spec: `PackageAnalyzer.extractLifecycleScripts` is
not among the analyzed sources (only its callers are).  Per the spec it
returns the snapshot's lifecycle scripts as a mapping from hook name to
command string, keeping the hooks with non-empty command text. -/
def extractLifecycleScripts (pd : PackageData) : List (String × String) :=
  pd.scripts.filter (fun hs => lifecycleHooks.contains hs.1 && hs.2 != "")

/-- Modelled from the spec: `PackageAnalyzer.normalizeScript` is not among
the analyzed sources.  The spec pattern-matches the hook's command text
directly, so normalization is the identity on the command string. -/
def normalizeScript (s : String) : String := s

/-- Sum of the per-script risks (`totalRisk` in `evaluate`; scripts with
zero risk are skipped by the source loop, which does not change the sum). -/
def lifecycleTotalRisk (pd : PackageData) : Nat :=
  ((extractLifecycleScripts pd).map
    (fun hs => (analyzeScript (normalizeScript hs.2)).risk)).sum

/-- `hasHighRisk`: some analyzed script hit a high-risk pattern. -/
def lifecycleHasHighRisk (pd : PackageData) : Bool :=
  (extractLifecycleScripts pd).any
    (fun hs => (analyzeScript (normalizeScript hs.2)).isHighRisk)

/-- The rule's constructor state: weight (default 30) and enabled flag. -/
structure LifecycleRule where
  weight : Nat
  enabled : Bool

/-- Result of `LifecycleScriptRiskRule.evaluate`. -/
structure LifecycleResult where
  deduction : Nat
  riskLevel : String
  totalRisk : Nat
  hasHighRisk : Bool
  totalScripts : Nat
  riskyScripts : Nat
  reason : Option String
  deriving Repr, DecidableEq

/-- `LifecycleScriptRiskRule.evaluate`: zero-deduction early returns for a
disabled rule or an empty script map, then the tiered deduction from
`totalRisk`/`hasHighRisk` and the overall risk level. -/
def lifecycleEvaluate (rule : LifecycleRule) (pd : PackageData) : LifecycleResult :=
  if !rule.enabled then ⟨0, "none", 0, false, 0, 0, some "Rule is disabled"⟩
  else
    let scripts := extractLifecycleScripts pd
    if scripts.isEmpty then
      ⟨0, "none", 0, false, 0, 0, some "No lifecycle scripts found"⟩
    else
      let t := lifecycleTotalRisk pd
      let h := lifecycleHasHighRisk pd
      { deduction :=
          if h || 3 ≤ t then rule.weight
          else if 2 ≤ t then rule.weight * 3 / 4
          else if 1 ≤ t then rule.weight / 2
          else 0
        riskLevel :=
          if h then "high"
          else if 2 ≤ t then "medium"
          else if 1 ≤ t then "low"
          else "none"
        totalRisk := t
        hasHighRisk := h
        totalScripts := scripts.length
        riskyScripts :=
          (scripts.filter
            (fun hs => 0 < (analyzeScript (normalizeScript hs.2)).risk)).length
        reason := none }

/-- A snapshot whose three lifecycle scripts each match exactly one
suspicious pattern (`\bcurl\s+[^\s]+`) and no high-risk pattern. -/
def pdThreeCurl : PackageData :=
  { PackageData.empty with
    name := some "pkg", version := some "1.0.0",
    scripts := [("preinstall", "curl a"), ("install", "curl b"),
      ("postinstall", "curl c")] }

/-- **C5 (counterexample).** Three scripts of risk 1 each give
`totalRisk = 3` with no high-risk hit: the rule deducts the full weight
(30) yet reports `riskLevel "medium"`, so the risk level is *not* `"high"`
exactly when the full weight is deducted. -/
theorem lifecycle_fullWeight_without_high_riskLevel :
    (lifecycleEvaluate ⟨30, true⟩ pdThreeCurl).totalRisk = 3 ∧
    (lifecycleEvaluate ⟨30, true⟩ pdThreeCurl).hasHighRisk = false ∧
    (lifecycleEvaluate ⟨30, true⟩ pdThreeCurl).deduction = 30 ∧
    (lifecycleEvaluate ⟨30, true⟩ pdThreeCurl).riskLevel = "medium" := by
  decide

/-- **C5 (amended).** For every lifecycle-scripts map evaluated by the
enabled rule with weight `W`, the deduction is `W` if `hasHighRisk` or
`totalRisk ≥ 3`, `⌊W·0.75⌋` if `totalRisk ≥ 2`, `⌊W·0.5⌋` if
`totalRisk ≥ 1`, else 0; the overall `riskLevel` is `"high"` exactly when
`hasHighRisk` holds, and otherwise follows the `totalRisk` tiers — so a
full-weight deduction reached through `totalRisk ≥ 3` alone is reported as
`"medium"`, not `"high"`. -/
theorem lifecycleEvaluate_deduction_riskLevel_tiers (w : ℕ) (pd : PackageData) :
    (lifecycleEvaluate ⟨w, true⟩ pd).deduction =
      (if lifecycleHasHighRisk pd || 3 ≤ lifecycleTotalRisk pd then w
       else if 2 ≤ lifecycleTotalRisk pd then w * 3 / 4
       else if 1 ≤ lifecycleTotalRisk pd then w / 2
       else 0) ∧
    (lifecycleEvaluate ⟨w, true⟩ pd).riskLevel =
      (if lifecycleHasHighRisk pd then "high"
       else if 2 ≤ lifecycleTotalRisk pd then "medium"
       else if 1 ≤ lifecycleTotalRisk pd then "low"
       else "none") := by
  unfold lifecycleEvaluate
  cases hE : extractLifecycleScripts pd with
  | nil =>
    have ht : lifecycleTotalRisk pd = 0 := by
      unfold lifecycleTotalRisk; rw [hE]; rfl
    have hh : lifecycleHasHighRisk pd = false := by
      unfold lifecycleHasHighRisk; rw [hE]; rfl
    simp [ht, hh]
  | cons a l => simp [hE]

/-- Scenario 2 of the spec: `{postinstall: "curl http://x",
preinstall: "wget http://y"}`. -/
def pdScenario2 : PackageData :=
  { PackageData.empty with
    name := some "pkg", version := some "1.0.0",
    scripts := [("postinstall", "curl http://x"), ("preinstall", "wget http://y")] }

/-- **C6 (counterexample).** Each of the two scripts matches *two*
suspicious patterns (the bare `curl`/`wget` pattern and the
`curl`/`wget`-followed-by-`http` pattern), so `totalRisk` is 4, not 2,
and the deduction is the full 30, not `⌊30·0.75⌋ = 22`. -/
theorem scenario2_two_matches_per_script :
    (lifecycleEvaluate ⟨30, true⟩ pdScenario2).totalRisk = 4 ∧
    (lifecycleEvaluate ⟨30, true⟩ pdScenario2).deduction = 30 ∧
    ¬((lifecycleEvaluate ⟨30, true⟩ pdScenario2).totalRisk = 2 ∧
      (lifecycleEvaluate ⟨30, true⟩ pdScenario2).deduction = 22) := by
  decide

/-- **C6 (amended).** On scripts `{postinstall: "curl http://x",
preinstall: "wget http://y"}` with weight 30, each script accrues two
suspicious-pattern match points, so `totalRisk = 4`, the deduction is the
full weight 30 (tier `totalRisk ≥ 3`), and the returned `riskLevel` is
`"medium"` (no high-risk pattern matched). -/
theorem scenario2_evaluation :
    (analyzeScript "curl http://x").risk = 2 ∧
    (analyzeScript "wget http://y").risk = 2 ∧
    (lifecycleEvaluate ⟨30, true⟩ pdScenario2).totalRisk = 4 ∧
    (lifecycleEvaluate ⟨30, true⟩ pdScenario2).hasHighRisk = false ∧
    (lifecycleEvaluate ⟨30, true⟩ pdScenario2).deduction = 30 ∧
    (lifecycleEvaluate ⟨30, true⟩ pdScenario2).riskLevel = "medium" := by
  decide

/-! ## Update-Behavior Rule (`src/rules/UpdateBehaviorRule.js`) -/

/-- A parsed semantic version as produced by `_parseVersion`. -/
structure SemVer where
  major : Nat
  minor : Nat
  patch : Nat
  prerelease : Option String
  build : Option String
  deriving Repr, DecidableEq

/-- Split a maximal run of leading decimal digits (`(\d+)` is greedy). -/
def takeDigits : List Char → List Char × List Char
  | [] => ([], [])
  | c :: rest =>
    if c.isDigit then
      let out := takeDigits rest
      (c :: out.1, out.2)
    else ([], c :: rest)

/-- Decimal value of a digit run (`parseInt(_, 10)`). -/
def digitsToNat (ds : List Char) : Nat :=
  ds.foldl (fun acc c => acc * 10 + (c.toNat - '0'.toNat)) 0

/-- The tail of the version-string regex
`(?:-(.+))?(?:\+(.+))?$`: `(.+)` is greedy, so a `-` with a non-empty rest
captures the whole rest as prerelease (which may contain `+`); only a `+`
with no preceding `-` captures a build; anything else fails the `$`. -/
def parseVersionTail : List Char → Option (Option String × Option String)
  | [] => some (none, none)
  | '-' :: rest =>
    if rest.isEmpty then none else some (some (String.mk rest), none)
  | '+' :: rest =>
    if rest.isEmpty then none else some (none, some (String.mk rest))
  | _ => none

/-- `_parseVersion`: strip one leading `v`, then match
`^(\d+)\.(\d+)\.(\d+)(?:-(.+))?(?:\+(.+))?$`; `null` on failure. -/
def parseVersion (version : String) : Option SemVer :=
  let clean := match version.data with
    | 'v' :: rest => rest
    | cs => cs
  let s1 := takeDigits clean
  if s1.1.isEmpty then none
  else
    match s1.2 with
    | '.' :: r2 =>
      let s2 := takeDigits r2
      if s2.1.isEmpty then none
      else
        match s2.2 with
        | '.' :: r4 =>
          let s3 := takeDigits r4
          if s3.1.isEmpty then none
          else
            match parseVersionTail s3.2 with
            | some pb =>
              some ⟨digitsToNat s1.1, digitsToNat s2.1, digitsToNat s3.1,
                pb.1, pb.2⟩
            | none => none
        | _ => none
    | _ => none

/-- Lexicographic strict order on character lists by code point. -/
def listCharLt : List Char → List Char → Bool
  | [], [] => false
  | [], _ :: _ => true
  | _ :: _, [] => false
  | a :: as, b :: bs =>
    if a.toNat < b.toNat then true
    else if b.toNat < a.toNat then false
    else listCharLt as bs

/-- `String.prototype.localeCompare`, approximated by code-point order.
The ICU collation is locale-dependent and not modelled; the source only
reaches it for version strings that fail semantic parsing. -/
def localeCompareApprox (a b : String) : Int :=
  if listCharLt a.data b.data then -1
  else if listCharLt b.data a.data then 1
  else 0

/-- `_compareVersionStrings`: compare parsed `(major, minor, patch)`
lexicographically, falling back to `localeCompare` when either side fails
to parse. -/
def compareVersionStrings (a b : String) : Int :=
  match parseVersion a, parseVersion b with
  | some pa, some pb =>
    if pa.major ≠ pb.major then (pa.major : Int) - pb.major
    else if pa.minor ≠ pb.minor then (pa.minor : Int) - pb.minor
    else if pa.patch ≠ pb.patch then (pa.patch : Int) - pb.patch
    else 0
  | _, _ => localeCompareApprox a b

/-- Result of `_analyzeVersionJump`. -/
structure JumpResult where
  isUnusual : Bool
  jumpType : Option String
  magnitude : Option Int
  deriving Repr, DecidableEq

/-- `_analyzeVersionJump`: a `major-jump` when the major difference reaches
the threshold (default 2); a `minor-jump` when major is unchanged and the
minor difference exceeds 5; otherwise not unusual.  Unparseable versions
are never unusual. -/
def analyzeVersionJump (threshold : Nat) (prevVersion currVersion : String) :
    JumpResult :=
  match parseVersion prevVersion, parseVersion currVersion with
  | some prev, some curr =>
    if (threshold : Int) ≤ (curr.major : Int) - (prev.major : Int) then
      ⟨true, some "major-jump", some ((curr.major : Int) - (prev.major : Int))⟩
    else if curr.major == prev.major && 5 < (curr.minor : Int) - (prev.minor : Int) then
      ⟨true, some "minor-jump", some ((curr.minor : Int) - (prev.minor : Int))⟩
    else ⟨false, none, none⟩
  | _, _ => ⟨false, none, none⟩

/-- Stable insertion of `x` into a list sorted by the comparator: `x` goes
after every `y` with `cmp y x ≤ 0`.  Models `Array.prototype.sort` (stable
in the engines the package targets). -/
def insertByCmp (cmp : String → String → Int) (x : String) :
    List String → List String
  | [] => [x]
  | y :: ys => if cmp y x ≤ 0 then y :: insertByCmp cmp x ys else x :: y :: ys

/-- Comparator-driven stable sort (insertion sort). -/
def sortByCmp (cmp : String → String → Int) : List String → List String
  | [] => []
  | x :: xs => insertByCmp cmp x (sortByCmp cmp xs)

/-- The default string comparison `Array.prototype.sort` falls back to when
its comparator argument is `undefined`: compare as strings by code units
(identical to code-point order on the BMP strings at hand). -/
def strCmpCodeUnits (a b : String) : Int :=
  if listCharLt a.data b.data then -1
  else if listCharLt b.data a.data then 1
  else 0

/-- Line 1012 of the source:
`Object.keys(versionHistory).sort(this._compareVersions)`.  The class
defines `_compareVersionStrings` but no method named `_compareVersions`,
so `sort` receives `undefined` as comparator and falls back to the default
lexicographic string comparison — not the semantic-version comparator.
`Object.keys` yields the non-index string keys in insertion order. -/
def sortedVersionKeys (vh : List (String × PackageData)) : List String :=
  sortByCmp strCmpCodeUnits (vh.map (fun kv => kv.1))

/-- Lines 1013–1022: the analysis window.  `currentVersion` is the
snapshot's version (falling back to the last sorted key when falsy);
`recentVersions` is the last `maxVersionsToAnalyze` sorted keys; the
window is the prefix of `recentVersions` up to `currentVersion` when the
latter is found there, otherwise the last 5. -/
def versionsToAnalyze (maxVersions : Nat) (pd : PackageData)
    (vh : List (String × PackageData)) : List String :=
  let versions := sortedVersionKeys vh
  let currentVersion : Option String :=
    match pd.version with
    | some v => if v == "" then versions.getLast? else some v
    | none => versions.getLast?
  let recentVersions := versions.drop (versions.length - maxVersions)
  match currentVersion.bind (fun cv => recentVersions.findIdx? (fun v => v == cv)) with
  | some i => recentVersions.take (i + 1)
  | none => recentVersions.drop (recentVersions.length - 5)

/-- The reduced suspicious-pattern list of `_isSuspiciousScript`,
transcribed in source order. -/
def updateSuspiciousPatterns : List JsPattern :=
  [ ⟨true, seq [lit "curl", wsPlus, nonWsPlus]⟩,
    ⟨true, seq [lit "wget", wsPlus, nonWsPlus]⟩,
    ⟨true, seq [lit "eval", wsStar, sym '(']⟩,
    ⟨true, seq [lit "fetch", wsStar, sym '(']⟩,
    requirePat (seq [lit "http", optR (chri 's')]),
    ⟨true, seq [lit "curl", wsPlus, dotStar, sym '|', wsStar, lit "sh"]⟩,
    ⟨true, seq [lit "curl", wsPlus, dotStar, sym '|', wsStar, lit "bash"]⟩,
    ⟨true, seq [lit "wget", wsPlus, dotStar, sym '|', wsStar, lit "sh"]⟩,
    ⟨true, seq [lit "wget", wsPlus, dotStar, sym '|', wsStar, lit "bash"]⟩ ]

/-- `_isSuspiciousScript`: a falsy (empty) script is not suspicious;
otherwise test the reduced pattern list. -/
def isSuspiciousScript (script : String) : Bool :=
  if script == "" then false
  else updateSuspiciousPatterns.any (fun p => testPat p script)

/-- Modelled from the spec: `PackageAnalyzer.extractDependencies` is not
among the analyzed sources (only its callers are).  Per the spec a
snapshot carries four dependency maps (runtime/dev/peer/optional);
extraction returns the map of the requested kind. -/
def extractDependencies (pd : PackageData) (kind : String) :
    List (String × String) :=
  if kind == "dependencies" then pd.dependencies
  else if kind == "devDependencies" then pd.devDependencies
  else if kind == "peerDependencies" then pd.peerDependencies
  else if kind == "optionalDependencies" then pd.optionalDependencies
  else []

/-- First components of an association list (`Object.keys`). -/
def keysOf (l : List (String × String)) : List String := l.map (fun kv => kv.1)

/-- Keys of `curr` that are absent from `prev`. -/
def countAdded (prev curr : List (String × String)) : Nat :=
  ((keysOf curr).filter (fun d => !(keysOf prev).contains d)).length

/-- The four dependency kinds iterated by `_detectDependencyChanges`. -/
def depTypes : List String :=
  ["dependencies", "devDependencies", "peerDependencies", "optionalDependencies"]

/-- Result of `_detectDependencyChanges`. -/
structure DepChanges where
  hasSignificantChanges : Bool
  totalAdded : Nat
  totalRemoved : Nat
  deriving Repr, DecidableEq

/-- `_detectDependencyChanges`: count added/removed names across the four
kinds; significant when more than 10 names were added. -/
def detectDependencyChanges (prevPd currPd : PackageData) : DepChanges :=
  let totalAdded := (depTypes.map (fun t =>
    countAdded (extractDependencies prevPd t) (extractDependencies currPd t))).sum
  let totalRemoved := (depTypes.map (fun t =>
    countAdded (extractDependencies currPd t) (extractDependencies prevPd t))).sum
  ⟨10 < totalAdded, totalAdded, totalRemoved⟩

/-- Object access `scripts[hook]` for a hook known to be present. -/
def scriptAt (l : List (String × String)) (h : String) : String :=
  ((l.find? (fun kv => kv.1 == h)).map (fun kv => kv.2)).getD ""

/-- Result of `_detectScriptChanges`. -/
structure ScriptChanges where
  hasChanges : Bool
  addedCount : Nat
  removedCount : Nat
  modifiedCount : Nat
  newSuspiciousCount : Nat
  deriving Repr, DecidableEq

/-- `_detectScriptChanges`: hook-by-hook diff.  Added hooks are checked for
suspiciousness on the raw current text; hooks present on both sides count
as modified when the normalized texts differ, and as newly suspicious when
only the current normalized text is suspicious. -/
def detectScriptChanges (prevScripts currScripts : List (String × String)) :
    ScriptChanges :=
  let prevHooks := keysOf prevScripts
  let currHooks := keysOf currScripts
  let added := currHooks.filter (fun h => !prevHooks.contains h)
  let newSuspAdded := added.filter (fun h => isSuspiciousScript (scriptAt currScripts h))
  let removed := prevHooks.filter (fun h => !currHooks.contains h)
  let common := prevHooks.filter (fun h => currHooks.contains h)
  let modified := common.filter (fun h =>
    normalizeScript (scriptAt prevScripts h) != normalizeScript (scriptAt currScripts h))
  let newSuspModified := modified.filter (fun h =>
    !isSuspiciousScript (normalizeScript (scriptAt prevScripts h)) &&
      isSuspiciousScript (normalizeScript (scriptAt currScripts h)))
  { hasChanges := !added.isEmpty || !removed.isEmpty || !modified.isEmpty
    addedCount := added.length
    removedCount := removed.length
    modifiedCount := modified.length
    newSuspiciousCount := newSuspAdded.length + newSuspModified.length }

/-- Result of `_compareVersionMetadata`: the `severity` of a flagged size
change (if any), and the script/dependency diffs (kept only when flagged,
as the source only stores them on `changes` in that case). -/
structure VersionChanges where
  hasIssues : Bool
  sizeSeverity : Option String
  scriptChanges : Option ScriptChanges
  depChanges : Option DepChanges
  deriving Repr, DecidableEq

/-- `_compareVersionMetadata`: flag a size increase above the threshold
(severity `high` past 100%, else `medium`), any script change, and a
significant dependency change. -/
def compareVersionMetadata (sizeThreshold : ℚ) (prevMeta currMeta : PackageData) :
    VersionChanges :=
  let prevSize := prevMeta.unpackedSize.getD 0
  let currSize := currMeta.unpackedSize.getD 0
  let sizeSeverity : Option String :=
    if 0 < prevSize ∧ 0 < currSize then
      let sizeIncrease := (currSize - prevSize) / prevSize
      if sizeThreshold < sizeIncrease then
        some (if 1 < sizeIncrease then "high" else "medium")
      else none
    else none
  let sc := detectScriptChanges (extractLifecycleScripts prevMeta)
    (extractLifecycleScripts currMeta)
  let scOpt := if sc.hasChanges then some sc else none
  let dc := detectDependencyChanges prevMeta currMeta
  let dcOpt := if dc.hasSignificantChanges then some dc else none
  ⟨sizeSeverity.isSome || scOpt.isSome || dcOpt.isSome, sizeSeverity, scOpt, dcOpt⟩

/-- One entry of the analysis `findings`: a pairwise-diff finding or a
version-jump finding (whose magnitude the source drops when mapping jumps
into findings). -/
inductive UBFinding where
  | pair (fromVersion toVersion : String) (changes : VersionChanges)
  | jump (fromVersion toVersion : String) (jumpType : String)
  deriving Repr, DecidableEq

/-- Consecutive pairs of a list (`i-1, i` loop). -/
def consecutivePairs : List String → List (String × String)
  | a :: b :: rest => (a, b) :: consecutivePairs (b :: rest)
  | _ => []

/-- `_detectVersionJumps`: re-sort all keys with the semantic comparator
and flag every unusual consecutive jump. -/
def detectVersionJumps (threshold : Nat) (versions : List String) : List UBFinding :=
  let sorted := sortByCmp compareVersionStrings versions
  (consecutivePairs sorted).filterMap (fun pq =>
    let j := analyzeVersionJump threshold pq.1 pq.2
    if j.isUnusual then some (UBFinding.jump pq.1 pq.2 (j.jumpType.getD ""))
    else none)

/-- The pairwise-diff loop of `_analyzeVersionChanges`: walk the analysis
window keeping the previous version's metadata; a key missing from the
history is skipped without updating the previous element (`continue`). -/
def pairFindings (sizeThreshold : ℚ) (vh : List (String × PackageData)) :
    List String → Option (String × PackageData) → List UBFinding
  | [], _ => []
  | v :: rest, prevOpt =>
    match vh.lookup v with
    | none => pairFindings sizeThreshold vh rest prevOpt
    | some meta =>
      let here : List UBFinding :=
        match prevOpt with
        | some pv =>
          let changes := compareVersionMetadata sizeThreshold pv.2 meta
          if changes.hasIssues then [UBFinding.pair pv.1 v changes] else []
        | none => []
      here ++ pairFindings sizeThreshold vh rest (some (v, meta))

/-- The analysis record returned by `_analyzeVersionChanges`. -/
structure UBAnalysis where
  findings : List UBFinding
  versionsAnalyzed : Nat
  totalVersions : Nat
  hasSuspiciousChanges : Bool
  deriving Repr, DecidableEq

/-- Configuration of `UpdateBehaviorRule` (constructor defaults: weight 10,
size threshold 0.5, window 10, major-jump threshold 2). -/
structure UpdateRule where
  weight : Nat
  enabled : Bool
  sizeIncreaseThreshold : ℚ
  maxVersionsToAnalyze : Nat
  versionJumpThreshold : Nat

/-- `_analyzeVersionChanges`: pairwise findings over the analysis window
followed by the version-jump findings over the whole sorted key list. -/
def analyzeVersionChanges (rule : UpdateRule) (pd : PackageData)
    (vh : List (String × PackageData)) : UBAnalysis :=
  let versions := sortedVersionKeys vh
  let window := versionsToAnalyze rule.maxVersionsToAnalyze pd vh
  let findings := pairFindings rule.sizeIncreaseThreshold vh window none ++
    detectVersionJumps rule.versionJumpThreshold versions
  ⟨findings, window.length, versions.length, !findings.isEmpty⟩

/-- Risk contribution of one finding, with its high-risk flag: jumps add 1;
a high-severity size change adds 3 and is high risk, other flagged size
changes add 1; newly-suspicious scripts add 2 each and are high risk,
other script changes add 1; significant dependency changes add 1. -/
def findingRisk : UBFinding → Nat × Bool
  | UBFinding.jump _ _ _ => (1, false)
  | UBFinding.pair _ _ ch =>
    let size : Nat × Bool :=
      match ch.sizeSeverity with
      | some sev => if sev == "high" then (3, true) else (1, false)
      | none => (0, false)
    let script : Nat × Bool :=
      match ch.scriptChanges with
      | some sc =>
        if 0 < sc.newSuspiciousCount then (2 * sc.newSuspiciousCount, true)
        else if sc.hasChanges then (1, false)
        else (0, false)
      | none => (0, false)
    let dep : Nat :=
      match ch.depChanges with
      | some dc => if dc.hasSignificantChanges then 1 else 0
      | none => 0
    (size.1 + script.1 + dep, size.2 || script.2)

/-- Deduction and risk level computed by `_calculateRisk`. -/
structure RiskOut where
  deduction : Nat
  riskLevel : String
  deriving Repr, DecidableEq

/-- `_calculateRisk`: sum the finding contributions and apply the tier
thresholds (full weight at high risk or score ≥ 5, 75% at ≥ 3, 50% at ≥ 1). -/
def calculateRisk (w : Nat) (analysis : UBAnalysis) : RiskOut :=
  if !analysis.hasSuspiciousChanges || analysis.findings.isEmpty then ⟨0, "none"⟩
  else
    let riskScore := (analysis.findings.map (fun f => (findingRisk f).1)).sum
    let hasHighRisk := analysis.findings.any (fun f => (findingRisk f).2)
    { deduction :=
        if hasHighRisk || 5 ≤ riskScore then w
        else if 3 ≤ riskScore then w * 3 / 4
        else if 1 ≤ riskScore then w / 2
        else 0
      riskLevel :=
        if hasHighRisk || 5 ≤ riskScore then "high"
        else if 3 ≤ riskScore then "medium"
        else if 1 ≤ riskScore then "low"
        else "none" }

/-- Result of `UpdateBehaviorRule.evaluate`. -/
structure UBResult where
  deduction : Nat
  riskLevel : String
  reason : Option String
  errorMsg : Option String
  analysis : Option UBAnalysis
  deriving Repr, DecidableEq

/-- `UpdateBehaviorRule.evaluate`: soft-fail paths for a disabled rule, a
snapshot without a (truthy) name, a failed history fetch (whose message
`_fetchVersionHistory` wraps), and a history of fewer than two versions;
otherwise analyze and convert to a deduction.  The fetch outcome is passed
explicitly, as the registry client is an injected collaborator. -/
def updateBehaviorEvaluate (rule : UpdateRule) (pd : Option PackageData)
    (fetchResult : Except String (List (String × PackageData))) : UBResult :=
  if !rule.enabled then ⟨0, "none", some "Rule is disabled", none, none⟩
  else
    match pd with
    | none => ⟨0, "none", some "Invalid package data", none, none⟩
    | some p =>
      if p.name.getD "" == "" then ⟨0, "none", some "Invalid package data", none, none⟩
      else
        match fetchResult with
        | Except.error e =>
          ⟨0, "none", some "Could not analyze version history",
            some ("Failed to fetch version history: " ++ e), none⟩
        | Except.ok vh =>
          if vh.length < 2 then
            ⟨0, "none", some "Insufficient version history for analysis", none, none⟩
          else
            let analysis := analyzeVersionChanges rule p vh
            let risk := calculateRisk rule.weight analysis
            ⟨risk.deduction, risk.riskLevel, none, none, some analysis⟩

/-- The snapshot used to exhibit the analysis ordering: version `1.2.0`. -/
def pdC4 : PackageData :=
  { PackageData.empty with name := some "pkg", version := some "1.2.0" }

/-- A two-entry version history whose keys share a major version but have
minors 2 and 10. -/
def vhC4 : List (String × PackageData) :=
  [("1.2.0", PackageData.empty), ("1.10.0", PackageData.empty)]

/-- **C4.** The version list feeding window selection and pairwise diffing
is sorted with `Array.prototype.sort`'s *default* string comparison (the
comparator reference `this._compareVersions` names no existing method), so
`"1.10.0"` precedes `"1.2.0"` in the analyzed order even though its parsed
triple `(1,10,0)` is larger than `(1,2,0)` — the order the intended
comparator `_compareVersionStrings` would produce is the opposite. -/
theorem analysis_order_is_lexicographic :
    versionsToAnalyze 10 pdC4 vhC4 = ["1.10.0", "1.2.0"] ∧
    parseVersion "1.2.0" = some ⟨1, 2, 0, none, none⟩ ∧
    parseVersion "1.10.0" = some ⟨1, 10, 0, none, none⟩ ∧
    compareVersionStrings "1.2.0" "1.10.0" < 0 := by
  decide

/-- **C7.** For parseable versions: equal majors with `|Δminor| ≤ 5` (in
particular equal major and minor with any patch delta) are never unusual,
and a major difference of at least 2 (the default threshold) is a
`major-jump` of magnitude `Δmajor`. -/
theorem analyzeVersionJump_thresholds (a b : String) (pa pb : SemVer)
    (ha : parseVersion a = some pa) (hb : parseVersion b = some pb) :
    (pa.major = pb.major → |(pb.minor : Int) - (pa.minor : Int)| ≤ 5 →
      (analyzeVersionJump 2 a b).isUnusual = false) ∧
    (pa.major = pb.major → pa.minor = pb.minor →
      (analyzeVersionJump 2 a b).isUnusual = false) ∧
    (2 ≤ (pb.major : Int) - (pa.major : Int) →
      analyzeVersionJump 2 a b =
        ⟨true, some "major-jump", some ((pb.major : Int) - (pa.major : Int))⟩) := by
  have hred : analyzeVersionJump 2 a b =
      (if ((2 : Nat) : Int) ≤ (pb.major : Int) - (pa.major : Int) then
        ⟨true, some "major-jump", some ((pb.major : Int) - (pa.major : Int))⟩
      else if pb.major == pa.major && decide (5 < (pb.minor : Int) - (pa.minor : Int)) then
        ⟨true, some "minor-jump", some ((pb.minor : Int) - (pa.minor : Int))⟩
      else ⟨false, none, none⟩) := by
    unfold analyzeVersionJump
    rw [ha, hb]
  rw [hred]
  refine ⟨?_, ?_, ?_⟩
  · intro hmaj hmin
    rw [abs_le] at hmin
    rw [if_neg (by omega : ¬ ((2 : Nat) : Int) ≤ (pb.major : Int) - (pa.major : Int))]
    rw [if_neg]
    simp only [Bool.and_eq_true, beq_iff_eq, decide_eq_true_eq, not_and]
    intro _
    omega
  · intro hmaj hmin
    rw [if_neg (by omega : ¬ ((2 : Nat) : Int) ≤ (pb.major : Int) - (pa.major : Int))]
    rw [if_neg]
    simp only [Bool.and_eq_true, beq_iff_eq, decide_eq_true_eq, not_and]
    intro _
    omega
  · intro hmaj
    rw [if_pos (by exact_mod_cast hmaj)]

/-- Witness for `analyzeVersionJump_thresholds` at `("1.0.0", "3.0.0")`
and `("1.2.0", "1.3.0")`. -/
theorem analyzeVersionJump_thresholds_witness :
    (analyzeVersionJump 2 "1.0.0" "3.0.0").isUnusual = true ∧
    (analyzeVersionJump 2 "1.0.0" "3.0.0").jumpType = some "major-jump" ∧
    (analyzeVersionJump 2 "1.2.0" "1.3.0").isUnusual = false := by
  have h1 := (analyzeVersionJump_thresholds "1.0.0" "3.0.0"
    ⟨1, 0, 0, none, none⟩ ⟨3, 0, 0, none, none⟩ (by decide) (by decide)).2.2
    (by decide)
  have h2 := (analyzeVersionJump_thresholds "1.2.0" "1.3.0"
    ⟨1, 2, 0, none, none⟩ ⟨1, 3, 0, none, none⟩ (by decide) (by decide)).1
    rfl (by decide)
  exact ⟨by rw [h1], by rw [h1], h2⟩

/-- **C9.** `UpdateBehaviorRule.evaluate` fails soft: a snapshot without a
name, a throwing history fetch, and a history of fewer than two versions
all yield deduction 0 with riskLevel `"none"` and a `reason` — never an
exception or an `"error"` risk level. -/
theorem updateBehavior_fails_soft (w : Nat) (st : ℚ) (mv jt : Nat)
    (pd : PackageData) (e : String) (vh : List (String × PackageData)) :
    (pd.name = none →
      updateBehaviorEvaluate ⟨w, true, st, mv, jt⟩ (some pd) (Except.ok vh) =
        ⟨0, "none", some "Invalid package data", none, none⟩) ∧
    ((updateBehaviorEvaluate ⟨w, true, st, mv, jt⟩ (some pd)
        (Except.error e)).deduction = 0 ∧
      (updateBehaviorEvaluate ⟨w, true, st, mv, jt⟩ (some pd)
        (Except.error e)).riskLevel = "none" ∧
      (updateBehaviorEvaluate ⟨w, true, st, mv, jt⟩ (some pd)
        (Except.error e)).reason.isSome = true) ∧
    (vh.length < 2 →
      (updateBehaviorEvaluate ⟨w, true, st, mv, jt⟩ (some pd)
        (Except.ok vh)).deduction = 0 ∧
      (updateBehaviorEvaluate ⟨w, true, st, mv, jt⟩ (some pd)
        (Except.ok vh)).riskLevel = "none" ∧
      (updateBehaviorEvaluate ⟨w, true, st, mv, jt⟩ (some pd)
        (Except.ok vh)).reason.isSome = true) := by
  unfold updateBehaviorEvaluate
  refine ⟨?_, ?_, ?_⟩
  · intro h
    simp [h]
  · by_cases h : pd.name.getD "" == ""
    · simp [h]
    · simp [h]
  · intro hlen
    by_cases h : pd.name.getD "" == ""
    · simp [h]
    · simp [h, hlen]

/-- Witness for `updateBehavior_fails_soft`: the empty snapshot (no name)
and the empty history. -/
theorem updateBehavior_fails_soft_witness :
    PackageData.empty.name = none ∧
    ([] : List (String × PackageData)).length < 2 ∧
    updateBehaviorEvaluate ⟨10, true, 1 / 2, 10, 2⟩ (some PackageData.empty)
      (Except.ok []) = ⟨0, "none", some "Invalid package data", none, none⟩ ∧
    (updateBehaviorEvaluate ⟨10, true, 1 / 2, 10, 2⟩ (some PackageData.empty)
      (Except.error "boom")).deduction = 0 := by
  have h := updateBehavior_fails_soft 10 (1 / 2) 10 2 PackageData.empty "boom" []
  exact ⟨rfl, by decide, h.1 rfl, h.2.1.1⟩

/-! ## Archive Ingestion (`src/utils/tarballAnalyzer.js`)

POSIX path strings, `path.join` (concatenate then canonicalize `.`, `..`
and duplicate separators), `String.prototype.startsWith`, and the analyzed
call's effect on the set of existing file-system paths. -/

/-- Split a path on `/` separators. -/
def splitSegsAux : List Char → List Char → List String
  | [], acc => [String.mk acc.reverse]
  | '/' :: rest, acc => String.mk acc.reverse :: splitSegsAux rest []
  | c :: rest, acc => splitSegsAux rest (c :: acc)

/-- The `/`-separated segments of a path string. -/
def splitPath (s : String) : List String := splitSegsAux s.data []

/-- Path normalization over segments: drop empty and `.` segments; `..`
pops the previous segment, is dropped at the root of an absolute path, and
is kept at the head of a relative path. -/
def normSegsAux (absolute : Bool) : List String → List String → List String
  | [], acc => acc.reverse
  | s :: rest, acc =>
    if s == "" || s == "." then normSegsAux absolute rest acc
    else if s == ".." then
      match acc with
      | [] =>
        if absolute then normSegsAux absolute rest []
        else normSegsAux absolute rest [".."]
      | t :: ts =>
        if t == ".." then normSegsAux absolute rest (".." :: t :: ts)
        else normSegsAux absolute rest ts
    else normSegsAux absolute rest (s :: acc)

/-- Join segments with `/`. -/
def joinSegs : List String → String
  | [] => ""
  | [s] => s
  | s :: rest => s ++ "/" ++ joinSegs rest

/-- Node's POSIX `path.join`: concatenate the non-empty parts with `/`,
then normalize; an empty result is `"."`. -/
def pathJoinList (parts : List String) : String :=
  let joined := joinSegs (parts.filter (fun p => p != ""))
  let absolute := joined.data.head? == some '/'
  let body := joinSegs (normSegsAux absolute (splitPath joined) [])
  if absolute then "/" ++ body
  else if body == "" then "."
  else body

/-- `path.join(a, b)`. -/
def pathJoin (a b : String) : String := pathJoinList [a, b]

/-- Character-list prefix test. -/
def isPrefixListChar : List Char → List Char → Bool
  | [], _ => true
  | _ :: _, [] => false
  | a :: as, b :: bs => a == b && isPrefixListChar as bs

/-- `String.prototype.startsWith`: is `pre` a raw string prefix of `s`? -/
def jsStartsWith (s pre : String) : Bool := isPrefixListChar pre.data s.data

/-- Segment-list prefix test. -/
def isPrefixSegs : List String → List String → Bool
  | [], _ => true
  | _ :: _, [] => false
  | a :: as, b :: bs => a == b && isPrefixSegs as bs

/-- Canonical, separator-safe containment: the canonicalized segments of
`root` are a segment-wise prefix of the canonicalized segments of `p`. -/
def containedIn (root p : String) : Bool :=
  isPrefixSegs (normSegsAux true (splitPath root) [])
    (normSegsAux true (splitPath p) [])

/-- `_extractTarball`, lines 289–297: the target of an archive entry is
`path.join(extractPath, header.name)`. -/
def entryTargetPath (extractPath entryName : String) : String :=
  pathJoin extractPath entryName

/-- The entry's security check, line 293: the entry is written unless
`!filePath.startsWith(extractPath)` — a raw string-prefix comparison on
the joined path. -/
def entryAccepted (extractPath entryName : String) : Bool :=
  jsStartsWith (entryTargetPath extractPath entryName) extractPath

/-- `getFileContent`, line 423: the read target is
`path.join(extractPath, 'package', filePath)`. -/
def fileContentPath (extractPath filePath : String) : String :=
  pathJoinList [extractPath, "package", filePath]

/-- `getFileContent`'s security check, line 426:
`fullPath.startsWith(extractPath)`. -/
def fileContentAccepted (extractPath filePath : String) : Bool :=
  jsStartsWith (fileContentPath extractPath filePath) extractPath

/-- **C1.** The containment checks are raw string-prefix comparisons, not
canonical containment: the archive entry `../extracted-evil/payload.js`
joins to the *sibling* directory `…/extracted-evil/payload.js`, which
passes `startsWith(extractPath)` although it lies outside the scratch
root, and is therefore written there; the relative read path
`../../extracted-evil/secret` likewise passes `getFileContent`'s check
while resolving outside the root. -/
theorem containment_check_bypassed :
    entryAccepted "/tmp/npm-security-score/pkg/extracted"
      "../extracted-evil/payload.js" = true ∧
    entryTargetPath "/tmp/npm-security-score/pkg/extracted"
      "../extracted-evil/payload.js" =
      "/tmp/npm-security-score/pkg/extracted-evil/payload.js" ∧
    containedIn "/tmp/npm-security-score/pkg/extracted"
      (entryTargetPath "/tmp/npm-security-score/pkg/extracted"
        "../extracted-evil/payload.js") = false ∧
    fileContentAccepted "/tmp/npm-security-score/pkg/extracted"
      "../../extracted-evil/secret" = true ∧
    containedIn "/tmp/npm-security-score/pkg/extracted"
      (fileContentPath "/tmp/npm-security-score/pkg/extracted"
        "../../extracted-evil/secret") = false := by
  decide

/-- `packageName.replace('/', '_')`: a string pattern replaces only the
first occurrence. -/
def replaceFirstSlash (s : String) : String := String.mk (go s.data)
  where go : List Char → List Char
    | [] => []
    | '/' :: rest => '_' :: rest
    | c :: rest => c :: go rest

/-- The per-package scratch directory
`path.join(this.tempDir, packageName.replace('/', '_'))`. -/
def tarballTempPath (tempDir packageName : String) : String :=
  tempDir ++ "/" ++ replaceFirstSlash packageName

/-- `fs.rm(target, {recursive: true, force: true})`: delete the target
and every path below it. -/
def rmRec (target : String) (fs : List String) : List String :=
  fs.filter (fun p => !(p == target || jsStartsWith p (target ++ "/")))

/-- Outcomes of the I/O collaborators of one `analyzeTarball` call:
whether the download and the extraction succeed, the entry paths the
extraction writes (relative to the extraction directory), and the result
of `_analyzeContents`. -/
structure TarballEnv (α : Type) where
  downloadOk : Bool
  extractOk : Bool
  extractedFiles : List String
  analyzeResult : Except String α

/-- `analyzeTarball(tarballUrl, packageName)` as a transformer of the set
of existing paths: fail fast on an empty URL; otherwise create the scratch
directory, download (a partial file may exist on failure), create the
extraction directory, extract, analyze, and in the `finally` remove the
extraction directory (when reached) and the scratch directory, ignoring
cleanup errors; the result propagates success or the first failure. -/
def analyzeTarball {α : Type} (tempDir url packageName : String)
    (env : TarballEnv α) (fs : List String) : List String × Except String α :=
  if url == "" then (fs, Except.error "Tarball URL is required")
  else
    let tempPath := tarballTempPath tempDir packageName
    let fs1 := tempPath :: fs
    let tarballPath := tempPath ++ "/package.tgz"
    if !env.downloadOk then
      (rmRec tempPath (tarballPath :: fs1), Except.error "Failed to download tarball")
    else
      let fs2 := tarballPath :: fs1
      let extractedPath := tempPath ++ "/extracted"
      let fs3 := extractedPath :: fs2
      if !env.extractOk then
        (rmRec tempPath (rmRec extractedPath fs3), Except.error "Extraction failed")
      else
        let fs4 := (env.extractedFiles.map (fun f => extractedPath ++ "/" ++ f)) ++ fs3
        match env.analyzeResult with
        | Except.error e => (rmRec tempPath (rmRec extractedPath fs4), Except.error e)
        | Except.ok a => (rmRec tempPath (rmRec extractedPath fs4), Except.ok a)

/-- Nothing equal to or below the removal target survives `rmRec`. -/
theorem not_mem_rmRec (target p : String) (fs : List String)
    (h : p = target ∨ jsStartsWith p (target ++ "/") = true) :
    p ∉ rmRec target fs := by
  intro hmem
  rw [rmRec, List.mem_filter] at hmem
  rcases h with h | h
  · simp [h] at hmem
  · simp [h] at hmem

/-- **C8.** On every exit path of `analyzeTarball` with a non-empty URL —
success, failed download, failed extraction, or an error raised during
content analysis — no path equal to or below the per-package scratch
directory (in particular the scratch directory itself and the extraction
directory below it) survives in the final file-system state. -/
theorem analyzeTarball_cleanup {α : Type} (tempDir url packageName : String)
    (env : TarballEnv α) (fs : List String) (p : String)
    (hurl : ¬ url = "")
    (hp : p = tarballTempPath tempDir packageName ∨
      jsStartsWith p (tarballTempPath tempDir packageName ++ "/") = true) :
    p ∉ (analyzeTarball tempDir url packageName env fs).1 := by
  unfold analyzeTarball
  rw [if_neg (by simpa using hurl)]
  cases hdl : env.downloadOk with
  | false => simpa using not_mem_rmRec _ p _ hp
  | true =>
    cases hex : env.extractOk with
    | false => simpa using not_mem_rmRec _ p _ hp
    | true =>
      cases han : env.analyzeResult with
      | error e => simpa [hdl, hex, han] using not_mem_rmRec _ p _ hp
      | ok a => simpa [hdl, hex, han] using not_mem_rmRec _ p _ hp

/-- Witness for `analyzeTarball_cleanup`: the scratch directory and the
extraction directory of a concrete failing analysis are gone. -/
theorem analyzeTarball_cleanup_witness :
    tarballTempPath "/tmp/npm-security-score" "@scope/pkg" ∉
      (analyzeTarball "/tmp/npm-security-score" "https://registry/p.tgz"
        "@scope/pkg" (⟨true, false, [], Except.ok 0⟩ : TarballEnv Nat)
        ["/etc/passwd"]).1 ∧
    (tarballTempPath "/tmp/npm-security-score" "@scope/pkg" ++ "/extracted") ∉
      (analyzeTarball "/tmp/npm-security-score" "https://registry/p.tgz"
        "@scope/pkg" (⟨true, false, [], Except.ok 0⟩ : TarballEnv Nat)
        ["/etc/passwd"]).1 := by
  constructor
  · exact analyzeTarball_cleanup "/tmp/npm-security-score" "https://registry/p.tgz"
      "@scope/pkg" ⟨true, false, [], Except.ok 0⟩ ["/etc/passwd"] _
      (by decide) (Or.inl rfl)
  · exact analyzeTarball_cleanup "/tmp/npm-security-score" "https://registry/p.tgz"
      "@scope/pkg" ⟨true, false, [], Except.ok 0⟩ ["/etc/passwd"] _
      (by decide) (Or.inr (by decide))

end NpmScore
